import Mathlib

/-!
Shallow embedding of the queued variant of the Expo push proxy
(`src/expo_push_proxy.js`, queued variant): an in-memory FIFO queue of
(token, payload) pairs drained by a single background worker that enforces a
minimum interval between outbound sends and a stagger delay between items,
plus the HTTP ingress handler (`POST /push`, body parsing, validation) and the
delivery client (`sendToExpo`).

JavaScript values coming out of `JSON.parse` are modelled by `JVal`; absent
object properties (JS `undefined`) are modelled by `Option JVal`.  Time is
modelled by a `Nat` millisecond clock; the event-driven runtime is modelled by
a discrete-event simulator (`run`) that interleaves `enqueue` arrivals with
the worker coroutine's wake-ups, faithful to the single-threaded cooperative
scheduling of the source: code between `await` points runs atomically.
-/

namespace ExpoProxy

/-- A JSON value, as produced by `JSON.parse` on the request body. -/
inductive JVal where
  | null
  | bool (b : Bool)
  | num (n : Int)
  | str (s : String)
  | arr (elems : List JVal)
  | obj (fields : List (String × JVal))

/-- JS truthiness of a defined value (`Boolean(v)`).  `NaN` is not
representable in this integer model; otherwise faithful. -/
def truthy : JVal → Bool
  | .null => false
  | .bool b => b
  | .num n => n != 0
  | .str s => s != ""
  | .arr _ => true
  | .obj _ => true

/-- JS truthiness of a possibly-undefined value (`!v` is its negation). -/
def truthyOpt : Option JVal → Bool
  | none => false
  | some v => truthy v

/-- Property access `v.k`: defined only on objects, `undefined` (`none`)
otherwise. -/
def jget (v : JVal) (k : String) : Option JVal :=
  match v with
  | .obj fields => fields.lookup k
  | _ => none

/-- JS `a || b` where `a` may be undefined: returns `a` when truthy, else `b`. -/
def jsOr (a : Option JVal) (b : JVal) : JVal :=
  match a with
  | some v => if truthy v then v else b
  | none => b

/-- `normalizeTokens(to)` from the source:
`if (!to) return []; if (Array.isArray(to)) return to.filter(Boolean); return [to];` -/
def normalizeTokens (to? : Option JVal) : List JVal :=
  match to? with
  | none => []
  | some tv =>
    if truthy tv = false then []
    else
      match tv with
      | .arr xs => xs.filter truthy
      | v => [v]

/-- The notification payload object built by the `/push` handler.  The
`priority` field is the constant string `"high"` and is added by
`buildExpoBody`. -/
structure NotificationPayload where
  title : JVal
  body : JVal
  data : JVal
  sound : JVal
  channelId : JVal

/-- The payload construction in the `/push` handler:
`{title: body.title, body: body.body, data: body.data || {}, sound: body.sound
|| "default", channelId: body.channelId || "default", priority: "high"}`. -/
def buildPayload (body : JVal) : NotificationPayload :=
  { title := (jget body "title").getD .null
    body := (jget body "body").getD .null
    data := jsOr (jget body "data") (.obj [])
    sound := jsOr (jget body "sound") (.str "default")
    channelId := jsOr (jget body "channelId") (.str "default") }

/-- The outbound request object `{ ...payload, to: token }` sent to the Expo
endpoint (field order as written in the handler's payload literal, with
`priority: "high"` fixed and `to` spread in last). -/
def buildExpoBody (p : NotificationPayload) (token : JVal) : List (String × JVal) :=
  [("title", p.title), ("body", p.body), ("data", p.data), ("sound", p.sound),
   ("channelId", p.channelId), ("priority", .str "high"), ("to", token)]

/-- A thrown JS error (the value observed by a `catch`). -/
structure JsErr where
  message : String

/-- Environment oracle for one outbound `fetch`: either a response (status and
body text) or a rejection (network error, timeout, malformed response). -/
inductive FetchOutcome where
  | success (status : Nat) (text : String)
  | networkError (message : String)

/-- JS `v.substring(a, b)`: a string operation; on a non-string receiver it
throws `TypeError: v.substring is not a function`. -/
def jsSubstring (v : JVal) (a b : Nat) : Except JsErr String :=
  match v with
  | .str s => .ok ((s.drop a).take (b - a))
  | _ => .error ⟨"token.substring is not a function"⟩

/-- `sendToExpo(token, payload)`.  The body is
`JSON.stringify({...payload, to: token})` (total on JSON-derived values);
the `try` block awaits the fetch, then logs
``Expo response ${status} for token ${token.substring(0, 20)}...`` — the
`substring` call throws on a non-string token; the `catch` block logs
``Expo send failed for ${token.substring(0, 20)}...`` — the same `substring`
call, so a throw inside `catch` propagates out of `sendToExpo`.  The function
resolves with no value (`Unit`); outcomes are only logged. -/
def sendToExpo (fetchRes : FetchOutcome) (token : JVal)
    (payload : NotificationPayload) : Except JsErr Unit :=
  let _body := buildExpoBody payload token
  let tryBlock : Except JsErr Unit :=
    match fetchRes with
    | .networkError m => .error ⟨m⟩
    | .success _status _text =>
      match jsSubstring token 0 20 with
      | .ok _ => .ok ()
      | .error e => .error e
  match tryBlock with
  | .ok _ => .ok ()
  | .error _ =>
    match jsSubstring token 0 20 with
    | .ok _ => .ok ()
    | .error e => .error e

/-- Whether a call of `sendToExpo` resolved (did not throw past its
boundary). -/
def resolves (e : Except JsErr Unit) : Bool :=
  match e with
  | .ok _ => true
  | .error _ => false

/-- Configuration: `MIN_INTERVAL_MS` (default 20000) and `STAGGER_MS`
(default 3000). -/
structure Config where
  minIntervalMs : Nat
  staggerMs : Nat

/-- One queued item together with its environment oracle: how long the
outbound send takes (`dur`, milliseconds between the fetch being issued and
the `await` resolving) and what the network does (`fetchRes`). -/
structure SimItem where
  token : JVal
  payload : NotificationPayload
  dur : Nat
  fetchRes : FetchOutcome

/-- Whether this item's `sendToExpo` call resolves (determined by its token
and fetch outcome). -/
def sendRes (it : SimItem) : Bool :=
  resolves (sendToExpo it.fetchRes it.token it.payload)

/-- An observed delivery attempt: `startT` is when the fetch is issued (after
the min-interval suspension), `finishT` when the awaited call completes, and
`ok` whether `sendToExpo` resolved rather than threw. -/
structure SendEv where
  token : JVal
  startT : Nat
  finishT : Nat
  ok : Bool

/-- The worker coroutine's continuation at a suspension point: `loopHead` is
the top of the `while (queue.length > 0)` loop; `afterSend it` is the
resumption of `await sendToExpo(...)` for the popped item `it`. -/
inductive Kont where
  | loopHead
  | afterSend (it : SimItem)

/-- The module-level mutable state: `queue`, the `sending` flag, the
`lastSent` timestamp, and the worker's pending wake-up (`none` when no worker
continuation is scheduled). -/
structure Sys where
  queue : List SimItem
  sending : Bool
  lastSent : Nat
  phase : Option (Nat × Kont)

/-- State at process start: empty queue, `sending = false`, `lastSent = 0`,
no worker. -/
def initSys : Sys := ⟨[], false, 0, none⟩

/-- `Math.max(0, lastSent + MIN_INTERVAL_MS - Date.now())`.  On `Nat` the
subtraction truncates at zero exactly as `Math.max(0, ·)` does on the
possibly-negative JS number. -/
def waitFor (lastSent minInterval now : Nat) : Nat :=
  max 0 (lastSent + minInterval - now)

/-- One atomic stretch of the worker coroutine, resumed at time `t` with
continuation `k`.
* `loopHead`: re-check `queue.length > 0`.  Empty: `sending = false`, loop
  exits.  Non-empty: `queue.shift()`, compute `waitMs`, suspend for it, then
  issue the send — the attempt starts at `t + waitMs` and its `await`
  resolves (or rejects) `dur` later.
* `afterSend it`: the awaited `sendToExpo` finished at `t`.  If it resolved,
  `lastSent = Date.now()`; then if `STAGGER_MS > 0 && queue.length > 0`,
  suspend for the stagger before the next loop iteration.  If it threw, the
  `processQueue()` promise rejects (logged by `enqueue`'s `.catch`) and the
  drain loop aborts with `sending` never reset. -/
def workerStep (cfg : Config) (t : Nat) (k : Kont) (s : Sys) :
    Sys × List SendEv :=
  match k with
  | .loopHead =>
    match s.queue with
    | [] => ({ s with sending := false, phase := none }, [])
    | it :: rest =>
      let start := t + waitFor s.lastSent cfg.minIntervalMs t
      let fin := start + it.dur
      ({ s with queue := rest, phase := some (fin, .afterSend it) },
       [⟨it.token, start, fin, sendRes it⟩])
  | .afterSend it =>
    if sendRes it then
      let s1 := { s with lastSent := t }
      if 0 < cfg.staggerMs && !s1.queue.isEmpty then
        ({ s1 with phase := some (t + cfg.staggerMs, .loopHead) }, [])
      else
        ({ s1 with phase := some (t, .loopHead) }, [])
    else
      ({ s with phase := none }, [])

/-- `enqueue(tokens, payload)` running at time `t`: push each item onto the
queue tail, then call `processQueue()`, whose synchronous prefix is
`if (sending) return; sending = true;` followed by the first loop check. -/
def arrive (t : Nat) (batch : List SimItem) (s : Sys) : Sys :=
  let s1 := { s with queue := s.queue ++ batch }
  if s1.sending then s1
  else { s1 with sending := true, phase := some (t, .loopHead) }

/-- Discrete-event execution: `arrivals` is the time-stamped list of
`enqueue` calls over the process lifetime; the earlier of the next arrival
and the worker's wake-up fires first (worker first on ties).  `fuel` bounds
the number of steps; the returned list is the chronological delivery-attempt
trace appended to `acc`. -/
def run (cfg : Config) : Nat → List (Nat × List SimItem) → Sys →
    List SendEv → Sys × List SendEv
  | 0, _, s, acc => (s, acc)
  | fuel + 1, arrivals, s, acc =>
    match s.phase, arrivals with
    | none, [] => (s, acc)
    | none, (t, b) :: rest => run cfg fuel rest (arrive t b s) acc
    | some (w, k), [] =>
      let r := workerStep cfg w k s
      run cfg fuel [] r.1 (acc ++ r.2)
    | some (w, k), (t, b) :: rest =>
      if w ≤ t then
        let r := workerStep cfg w k s
        run cfg fuel ((t, b) :: rest) r.1 (acc ++ r.2)
      else
        run cfg fuel rest (arrive t b s) acc

/-- An item as stored on the queue by `enqueue` (no environment oracle). -/
structure QueueItem where
  token : JVal
  payload : NotificationPayload

/-- An HTTP response produced by `sendJson`. -/
structure HttpResp where
  status : Nat
  body : List (String × JVal)

/-- The `POST /push` handler after a successfully parsed body: validation,
payload construction, `enqueue`, and the synchronous response.  Returns the
response together with the list of items passed to `enqueue` (empty on the
400 paths). -/
def handlePush (body : JVal) : HttpResp × List QueueItem :=
  let tokens := normalizeTokens (jget body "to")
  if tokens.length = 0 then
    (⟨400, [("error", .str "Missing 'to' token(s)")]⟩, [])
  else if !truthyOpt (jget body "title") || !truthyOpt (jget body "body") then
    (⟨400, [("error", .str "Missing 'title' or 'body'")]⟩, [])
  else
    let payload := buildPayload body
    (⟨202, [("queued", .num tokens.length)]⟩,
     tokens.map (fun tk => ⟨tk, payload⟩))

/-- The accumulation loop of `parseBody`: concatenate the received chunks,
rejecting with `Payload too large` as soon as the accumulated data exceeds
`1024 * 16` characters. -/
def accumulate : List String → String → Except JsErr String
  | [], data => .ok data
  | c :: rest, data =>
    let d := data ++ c
    if 1024 * 16 < d.length then .error ⟨"Payload too large"⟩
    else accumulate rest d

/-- `parseBody(req)`, parametric in the JSON parser so that "parsing is never
attempted on an oversized body" is expressible: resolve `JSON.parse(data)`
(or `{}` on an empty body) only once all chunks have been accumulated without
tripping the size check. -/
def parseBody (parse : String → Except JsErr JVal) (chunks : List String) :
    Except JsErr JVal :=
  match accumulate chunks "" with
  | .error e => .error e
  | .ok data => if data = "" then .ok (.obj []) else parse data

/-- Total length of the received request body. -/
def totalLen (chunks : List String) : Nat :=
  (chunks.map String.length).sum

/-- The top-level request handler: `GET /health`, `POST /push` (body parsing
with its `catch` branch mapping any rejection to a 400 with the error
message), and the 404 fallback. -/
def handleRequest (parse : String → Except JsErr JVal) (method path : String)
    (chunks : List String) (queueLen : Nat) : HttpResp × List QueueItem :=
  if method = "GET" && path = "/health" then
    (⟨200, [("status", .str "ok"), ("queued", .num queueLen)]⟩, [])
  else if method = "POST" && path = "/push" then
    match parseBody parse chunks with
    | .error e => (⟨400, [("error", .str e.message)]⟩, [])
    | .ok body => handlePush body
  else
    (⟨404, [("error", .str "Not found")]⟩, [])

/-- Tokens submitted across a whole sequence of `enqueue` calls, in arrival
order. -/
def batchTokens (arrivals : List (Nat × List SimItem)) : List JVal :=
  arrivals.flatMap (fun a => a.2.map SimItem.token)

/-- Every token in every batch is a string (JS `typeof token === "string"`). -/
def isStrTok : JVal → Bool
  | .str _ => true
  | _ => false

/-- A sample payload as built by the handler for `{title:"t", body:"b"}`. -/
def payload0 : NotificationPayload :=
  ⟨.str "t", .str "b", .obj [], .str "default", .str "default"⟩

/-- The default configuration: 20000 ms minimum interval, 3000 ms stagger. -/
def cfg20_3 : Config := ⟨20000, 3000⟩

/-- A well-behaved queued item with a string token. -/
def itW : SimItem := ⟨.str "W", payload0, 5, .success 200 "ok"⟩

/-- A 16385-character request body. -/
def bigChunk : String := String.mk (List.replicate 16385 'a')

/-- C1's spacing property over a trace: every consecutive pair of delivery
attempts is separated by at least `minI` milliseconds between the completion
of the first and the start of the second. -/
def gapChain (minI : Nat) (evs : List SendEv) : Prop :=
  List.Chain' (fun a b => a.finishT + minI ≤ b.startT) evs

/-- Invariant tying the worker state to the trace emitted so far: the flag is
set whenever a wake-up is scheduled; a pending `afterSend` wake-up is the
completion of the last emitted attempt; at a loop head (and when idle)
`lastSent` is the completion time of the last emitted attempt, if any. -/
def stateEvInv (s : Sys) (acc : List SendEv) : Prop :=
  (∀ w k, s.phase = some (w, k) → s.sending = true)
  ∧ match s.phase with
    | some (w, .afterSend _) => ∃ e, acc.getLast? = some e ∧ e.finishT = w
    | some (_, .loopHead) =>
        acc = [] ∨ ∃ e, acc.getLast? = some e ∧ s.lastSent = e.finishT
    | none =>
        s.sending = true
        ∨ acc = [] ∨ ∃ e, acc.getLast? = some e ∧ s.lastSent = e.finishT

/-- Total number of tokens submitted across a sequence of `enqueue` calls. -/
def totalItems (arrivals : List (Nat × List SimItem)) : Nat :=
  (arrivals.map (fun a => a.2.length)).sum

/-- Remaining work of the worker's current continuation, for fuel bounds. -/
def phaseCost : Option (Nat × Kont) → Nat
  | none => 0
  | some (_, .loopHead) => 1
  | some (_, .afterSend _) => 2

/-- Well-formedness of a draining state: when idle the flag is clear and the
queue empty; when a wake-up is pending the flag is set; an in-flight send
will resolve. -/
def drainWF (s : Sys) : Prop :=
  match s.phase with
  | none => s.sending = false ∧ s.queue = []
  | some (_, .loopHead) => s.sending = true
  | some (_, .afterSend it) => s.sending = true ∧ sendRes it = true

/-- Every queued item carries a string token. -/
def strQueue (l : List SimItem) : Prop := ∀ it ∈ l, isStrTok it.token = true

/-- Every submitted token is a string. -/
def strArrivals (arrivals : List (Nat × List SimItem)) : Prop :=
  ∀ a ∈ arrivals, strQueue a.2

instance (l : List SimItem) : Decidable (strQueue l) :=
  inferInstanceAs (Decidable (∀ it ∈ l, isStrTok it.token = true))

instance (arrivals : List (Nat × List SimItem)) :
    Decidable (strArrivals arrivals) :=
  inferInstanceAs (Decidable (∀ a ∈ arrivals, strQueue a.2))

/-- Items for the C2 counterexample: two string tokens around a numeric
token (`{to:["A",7,"C"]}` — `7` is truthy, so normalization keeps it). -/
def itKA : SimItem := ⟨.str "A", payload0, 50, .success 200 "ok"⟩

/-- The numeric token `7` whose send throws. -/
def itK7 : SimItem := ⟨.num 7, payload0, 5, .success 200 "ok"⟩

/-- The third token, never attempted in the C2 counterexample. -/
def itKC : SimItem := ⟨.str "C", payload0, 10, .success 200 "ok"⟩

/-- Item for the C7 counterexample: the boolean token `true` with a failing
fetch. -/
def itKT : SimItem := ⟨.bool true, payload0, 5, .networkError "ECONNREFUSED"⟩

/-- The follow-up item never attempted in the C7 counterexample. -/
def itKD : SimItem := ⟨.str "D", payload0, 5, .success 200 "ok"⟩

/-- A string-token item whose fetch fails (network error). -/
def itF1 : SimItem := ⟨.str "E", payload0, 7, .networkError "timeout"⟩

/-- Another string-token item whose fetch fails. -/
def itF2 : SimItem := ⟨.str "F", payload0, 7, .networkError "refused"⟩

section Theorems

/-! ### One-step unfolding laws for `run` -/

/-- Out of fuel: `run` stops. -/
theorem run_zero (cfg : Config) (arrivals : List (Nat × List SimItem))
    (s : Sys) (acc : List SendEv) : run cfg 0 arrivals s acc = (s, acc) := rfl

/-- No scheduled worker and no remaining arrivals: execution is over. -/
theorem run_succ_none_nil (cfg : Config) (n : Nat) (q : List SimItem)
    (sd : Bool) (ls : Nat) (acc : List SendEv) :
    run cfg (n + 1) [] ⟨q, sd, ls, none⟩ acc = (⟨q, sd, ls, none⟩, acc) := rfl

/-- No scheduled worker: the next arrival fires. -/
theorem run_succ_none_cons (cfg : Config) (n t : Nat) (b : List SimItem)
    (rest : List (Nat × List SimItem)) (q : List SimItem) (sd : Bool)
    (ls : Nat) (acc : List SendEv) :
    run cfg (n + 1) ((t, b) :: rest) ⟨q, sd, ls, none⟩ acc
      = run cfg n rest (arrive t b ⟨q, sd, ls, none⟩) acc := rfl

/-- A scheduled worker and no remaining arrivals: the worker wakes. -/
theorem run_succ_some_nil (cfg : Config) (n w : Nat) (k : Kont)
    (q : List SimItem) (sd : Bool) (ls : Nat) (acc : List SendEv) :
    run cfg (n + 1) [] ⟨q, sd, ls, some (w, k)⟩ acc
      = run cfg n [] (workerStep cfg w k ⟨q, sd, ls, some (w, k)⟩).1
          (acc ++ (workerStep cfg w k ⟨q, sd, ls, some (w, k)⟩).2) := rfl

/-- Both a scheduled worker and a pending arrival: the earlier fires (worker
first on ties). -/
theorem run_succ_some_cons (cfg : Config) (n w t : Nat) (k : Kont)
    (b : List SimItem) (rest : List (Nat × List SimItem)) (q : List SimItem)
    (sd : Bool) (ls : Nat) (acc : List SendEv) :
    run cfg (n + 1) ((t, b) :: rest) ⟨q, sd, ls, some (w, k)⟩ acc
      = if w ≤ t then
          run cfg n ((t, b) :: rest)
            (workerStep cfg w k ⟨q, sd, ls, some (w, k)⟩).1
            (acc ++ (workerStep cfg w k ⟨q, sd, ls, some (w, k)⟩).2)
        else
          run cfg n rest (arrive t b ⟨q, sd, ls, some (w, k)⟩) acc := rfl

/-! ### C6: the delivery client and thrown errors -/

/-- C6 counterexample: `sendToExpo` can throw past its boundary.  For the
truthy non-string token `7` (which `normalizeTokens` lets through, so it is
reachable from a request `{to:[7],...}`), the `token.substring(0, 20)` call
inside the `catch` block itself throws, so both on a network error and on a
successful fetch the `TypeError` escapes `sendToExpo`. -/
theorem c6_counterexample :
    resolves (sendToExpo (.networkError "connect ECONNREFUSED") (.num 7) payload0) = false
    ∧ resolves (sendToExpo (.success 200 "ok") (.num 7) payload0) = false
    ∧ normalizeTokens (some (.arr [.num 7])) = [.num 7] :=
  ⟨rfl, rfl, rfl⟩

/-- C6 (amended): for every *string* token, `sendToExpo` never throws past
its boundary — every failure path (network error as fetch rejection,
non-2xx status, any response body) resolves rather than propagating a
fault. -/
theorem c6_amended_string_token_never_throws (f : FetchOutcome) (s : String)
    (p : NotificationPayload) : sendToExpo f (.str s) p = .ok () := by
  cases f <;> rfl

/-! ### C8: concrete `POST /push` request/response cases -/

/-- C8: missing `to` yields a 400 whose error message mentions `to`; missing
`title`/`body` yields 400; the valid single-token input
`{to:"X", title:"t", body:"b"}` yields 202 `{queued: 1}`, enqueues exactly one
item with token `"X"`, which results in exactly one delivery attempt, and the
outbound body carries `priority: "high"` and `to: "X"`. -/
theorem c8_push_request_cases :
    handlePush (.obj [("title", .str "t"), ("body", .str "b")])
      = (⟨400, [("error", .str "Missing 'to' token(s)")]⟩, [])
    ∧ (∃ pre post, "Missing 'to' token(s)" = pre ++ "to" ++ post)
    ∧ (handlePush (.obj [("to", .str "ABC")])).1.status = 400
    ∧ handlePush (.obj [("to", .str "X"), ("title", .str "t"), ("body", .str "b")])
        = (⟨202, [("queued", .num 1)]⟩, [⟨.str "X", payload0⟩])
    ∧ (run cfg20_3 10 [(100000, [⟨.str "X", payload0, 50, .success 200 "ok"⟩])] initSys []).2
        = [⟨.str "X", 100000, 100050, true⟩]
    ∧ (buildExpoBody payload0 (.str "X")).lookup "priority" = some (.str "high")
    ∧ (buildExpoBody payload0 (.str "X")).lookup "to" = some (.str "X") :=
  ⟨rfl, ⟨"Missing '", "' token(s)", rfl⟩, rfl, rfl, rfl, rfl, rfl⟩

/-! ### C3: mutual exclusion of the drain loop -/

/-- C3: at most one worker drains the queue: an `enqueue` arriving while
`sending` is set only appends to the queue tail (the `processQueue` call
returns without starting a second drain loop or touching the scheduled
wake-up); when no worker is active, `enqueue` sets the flag and starts the
loop; and the flag is cleared only by the loop-head step that observes an
empty queue. -/
theorem c3_single_worker_flag_discipline (cfg : Config) (t w : Nat)
    (b : List SimItem) (k : Kont) (s : Sys) :
    (s.sending = true → arrive t b s = { s with queue := s.queue ++ b })
    ∧ (s.sending = false →
        (arrive t b s).sending = true
        ∧ (arrive t b s).phase = some (t, .loopHead)
        ∧ (arrive t b s).queue = s.queue ++ b)
    ∧ (s.sending = true → (workerStep cfg w k s).1.sending = false →
        k = .loopHead ∧ s.queue = []) := by
  refine ⟨?_, ?_, ?_⟩
  · intro h
    simp [arrive, h]
  · intro h
    simp [arrive, h]
  · intro h hs
    cases k with
    | loopHead =>
      cases hq : s.queue with
      | nil => exact ⟨rfl, rfl⟩
      | cons it rest =>
        exfalso
        rw [workerStep] at hs
        simp [hq, h] at hs
    | afterSend it =>
      exfalso
      rw [workerStep] at hs
      by_cases hr : sendRes it = true <;> simp [hr, h] at hs
      split at hs <;> simp_all

/-- Witness for C3: concrete instance with the flag set and an empty queue. -/
theorem c3_witness :
    Kont.loopHead = Kont.loopHead ∧ (Sys.mk [] true 0 (some (5, .loopHead))).queue = [] :=
  (c3_single_worker_flag_discipline cfg20_3 1 5 [] .loopHead
    ⟨[], true, 0, some (5, .loopHead)⟩).2.2 rfl rfl

/-! ### C5: the stagger delay and its composition with the minimum interval -/

/-- C5: when a send completes at time `w` with the queue still non-empty and
a positive stagger configured, the worker suspends for exactly the stagger
before the next loop iteration; the next attempt then starts after the
residual minimum-interval wait computed at `w + stagger`, so the two
suspensions compose additively (and the residual wait is still positive
whenever the stagger is smaller than the minimum interval). -/
theorem c5_stagger_between_batch_items (cfg : Config) (w : Nat)
    (it it2 : SimItem) (rest : List SimItem) (s : Sys)
    (hst : 0 < cfg.staggerMs) (hq : s.queue = it2 :: rest)
    (hok : sendRes it = true) :
    (workerStep cfg w (.afterSend it) s).1.phase = some (w + cfg.staggerMs, .loopHead)
    ∧ (workerStep cfg w (.afterSend it) s).1.lastSent = w
    ∧ (workerStep cfg (w + cfg.staggerMs) .loopHead
        (workerStep cfg w (.afterSend it) s).1).2
        = [⟨it2.token,
            w + cfg.staggerMs + waitFor w cfg.minIntervalMs (w + cfg.staggerMs),
            w + cfg.staggerMs + waitFor w cfg.minIntervalMs (w + cfg.staggerMs) + it2.dur,
            sendRes it2⟩]
    ∧ waitFor w cfg.minIntervalMs (w + cfg.staggerMs)
        = cfg.minIntervalMs - cfg.staggerMs
    ∧ (cfg.staggerMs < cfg.minIntervalMs →
        0 < waitFor w cfg.minIntervalMs (w + cfg.staggerMs)) := by
  have hw : waitFor w cfg.minIntervalMs (w + cfg.staggerMs)
      = cfg.minIntervalMs - cfg.staggerMs := by
    simp only [waitFor, Nat.zero_max]
    omega
  have h1 : (workerStep cfg w (.afterSend it) s).1
      = { s with lastSent := w, phase := some (w + cfg.staggerMs, .loopHead) } := by
    rw [workerStep]
    simp [hok, hq, hst]
  refine ⟨by rw [h1], by rw [h1], ?_, hw, by omega⟩
  rw [h1, workerStep]
  simp [hq]

/-- Witness for C5: a completed send at `w = 1000` under the default
configuration, with another item still queued. -/
theorem c5_witness :
    (workerStep cfg20_3 1000 (.afterSend itW)
      ⟨[itW], true, 0, some (1000, .afterSend itW)⟩).1.phase
      = some (4000, .loopHead) := by
  have h := c5_stagger_between_batch_items cfg20_3 1000 itW itW []
    ⟨[itW], true, 0, some (1000, .afterSend itW)⟩ (by decide) rfl rfl
  exact h.1

/-! ### C4: accepted `POST /push` requests and the queued count -/

/-- C4 counterexample: for the accepted request
`{to:["A",""], title:"t", body:"b"}` the `to` field holds two entries, but
`normalizeTokens`'s `filter(Boolean)` drops the falsy empty-string entry: the
202 response reports `queued: 1` and only one item is enqueued, so the
reported count is not the number of tokens in the `to` field and one entry
is dropped. -/
theorem c4_counterexample :
    jget (.obj [("to", .arr [.str "A", .str ""]), ("title", .str "t"),
        ("body", .str "b")]) "to" = some (.arr [.str "A", .str ""])
    ∧ (handlePush (.obj [("to", .arr [.str "A", .str ""]), ("title", .str "t"),
        ("body", .str "b")])).1.status = 202
    ∧ (handlePush (.obj [("to", .arr [.str "A", .str ""]), ("title", .str "t"),
        ("body", .str "b")])).1.body = [("queued", .num 1)]
    ∧ (handlePush (.obj [("to", .arr [.str "A", .str ""]), ("title", .str "t"),
        ("body", .str "b")])).2.map QueueItem.token = [.str "A"] :=
  ⟨rfl, rfl, rfl, rfl⟩

/-- Projecting the token back out of the items built by the handler for
`enqueue` recovers the normalized token list. -/
theorem map_token_mk (l : List JVal) (p : NotificationPayload) :
    (l.map (fun tk => (⟨tk, p⟩ : QueueItem))).map QueueItem.token = l := by
  induction l with
  | nil => rfl
  | cons a l ih => simp [ih]

/-- C4 (amended): for every accepted `POST /push` request (202 response),
exactly one `QueueItem` per *normalized* token (the entries of `to` that
survive `filter(Boolean)`) is enqueued, in the given order, each carrying the
constructed payload, and the `queued` count in the response equals the number
of normalized tokens, which is the number of items enqueued. -/
theorem c4_amended_queued_count (body : JVal)
    (h : (handlePush body).1.status = 202) :
    (handlePush body).2.map QueueItem.token = normalizeTokens (jget body "to")
    ∧ (handlePush body).1.body
        = [("queued", .num (normalizeTokens (jget body "to")).length)]
    ∧ (handlePush body).2.length = (normalizeTokens (jget body "to")).length
    ∧ ∀ qi ∈ (handlePush body).2, qi.payload = buildPayload body := by
  by_cases h1 : (normalizeTokens (jget body "to")).length = 0
  · rw [handlePush] at h
    simp [h1] at h
  · by_cases h2 :
      (!truthyOpt (jget body "title") || !truthyOpt (jget body "body")) = true
    · rw [handlePush] at h
      simp [h1, h2] at h
    · have e : handlePush body
          = (⟨202, [("queued", .num (normalizeTokens (jget body "to")).length)]⟩,
             (normalizeTokens (jget body "to")).map
               (fun tk => ⟨tk, buildPayload body⟩)) := by
        simp only [handlePush]
        rw [if_neg h1, if_neg h2]
      rw [e]
      refine ⟨map_token_mk _ _, rfl, by simp, ?_⟩
      intro qi hqi
      rw [List.mem_map] at hqi
      obtain ⟨tk, _, rfl⟩ := hqi
      rfl

/-- Witness for C4: the accepted two-token request
`{to:["A","B"], title:"t", body:"b"}`. -/
theorem c4_witness :
    (handlePush (.obj [("to", .arr [.str "A", .str "B"]), ("title", .str "t"),
        ("body", .str "b")])).2.map QueueItem.token
      = normalizeTokens (jget (.obj [("to", .arr [.str "A", .str "B"]),
          ("title", .str "t"), ("body", .str "b")]) "to")
    ∧ (handlePush (.obj [("to", .arr [.str "A", .str "B"]), ("title", .str "t"),
        ("body", .str "b")])).1.body = [("queued", .num 2)] := by
  have h := c4_amended_queued_count (.obj [("to", .arr [.str "A", .str "B"]),
    ("title", .str "t"), ("body", .str "b")]) rfl
  exact ⟨h.1, h.2.1⟩

/-! ### C9: oversized request bodies -/

/-- The size check in `parseBody` fires on some prefix as soon as the total
body length exceeds `1024 * 16`, before any parsing. -/
theorem accumulate_oversize (chunks : List String) :
    ∀ data : String, 1024 * 16 < data.length + totalLen chunks →
      data.length ≤ 1024 * 16 →
      accumulate chunks data = .error ⟨"Payload too large"⟩ := by
  induction chunks with
  | nil =>
    intro data h hd
    simp [totalLen] at h
    omega
  | cons c rest ih =>
    intro data h hd
    rw [accumulate]
    split
    · rfl
    · rename_i hle
      rw [not_lt, String.length_append] at hle
      simp [totalLen] at h
      apply ih
      · rw [String.length_append]
        simp [totalLen]
        omega
      · rw [String.length_append]
        omega

/-- C9: every request whose body exceeds 16 KiB is rejected with the
synchronous 400 `Payload too large` client error, and the result of
`parseBody` does not depend on the JSON parser at all — parsing is never
attempted on an oversized body. -/
theorem c9_oversized_body_rejected
    (parse parse2 : String → Except JsErr JVal) (chunks : List String)
    (qn : Nat) (h : 1024 * 16 < totalLen chunks) :
    handleRequest parse "POST" "/push" chunks qn
      = (⟨400, [("error", .str "Payload too large")]⟩, [])
    ∧ parseBody parse chunks = parseBody parse2 chunks := by
  have hacc : accumulate chunks "" = .error ⟨"Payload too large"⟩ := by
    apply accumulate_oversize chunks "" (by simpa using h) (by simp)
  constructor
  · rw [handleRequest]
    simp [parseBody, hacc]
  · simp [parseBody, hacc]

/-- Witness for C9: a single body chunk one character over the 16 KiB limit. -/
theorem c9_witness :
    handleRequest (fun _ => .ok (.obj [])) "POST" "/push" [bigChunk] 0
      = (⟨400, [("error", .str "Payload too large")]⟩, [])
    ∧ parseBody (fun _ => .ok (.obj [])) [bigChunk]
        = parseBody (fun _ => .error ⟨"other"⟩) [bigChunk] := by
  apply c9_oversized_body_rejected
  show 1024 * 16 < totalLen [bigChunk]
  have hb : bigChunk.length = 16385 := by
    rw [bigChunk]
    show (List.replicate 16385 'a').length = 16385
    exact List.length_replicate 16385 'a'
  have ht : totalLen [bigChunk] = 16385 := by
    simp [totalLen, hb]
  rw [ht]
  norm_num

/-! ### C10: the initial `lastSent` timestamp -/

/-- Whatever the fuel, arrivals, and starting state, `run` only ever appends
to the already-accumulated trace. -/
theorem run_extends_acc (cfg : Config) :
    ∀ (fuel : Nat) (arrivals : List (Nat × List SimItem)) (s : Sys)
      (acc : List SendEv),
      ∃ tail, (run cfg fuel arrivals s acc).2 = acc ++ tail := by
  intro fuel
  induction fuel with
  | zero => exact fun _ _ acc => ⟨[], by rw [run_zero]; simp⟩
  | succ n ih =>
    intro arrivals s acc
    obtain ⟨q, sd, ls, ph⟩ := s
    rcases ph with _ | ⟨w, k⟩
    · rcases arrivals with _ | ⟨⟨t, b⟩, rest⟩
      · exact ⟨[], by rw [run_succ_none_nil]; simp⟩
      · rw [run_succ_none_cons]
        exact ih rest _ acc
    · rcases arrivals with _ | ⟨⟨t, b⟩, rest⟩
      · rw [run_succ_some_nil]
        obtain ⟨tl, htl⟩ := ih []
          (workerStep cfg w k ⟨q, sd, ls, some (w, k)⟩).1
          (acc ++ (workerStep cfg w k ⟨q, sd, ls, some (w, k)⟩).2)
        exact ⟨_, by rw [htl, List.append_assoc]⟩
      · rw [run_succ_some_cons]
        split
        · obtain ⟨tl, htl⟩ := ih ((t, b) :: rest)
            (workerStep cfg w k ⟨q, sd, ls, some (w, k)⟩).1
            (acc ++ (workerStep cfg w k ⟨q, sd, ls, some (w, k)⟩).2)
          exact ⟨_, by rw [htl, List.append_assoc]⟩
        · exact ih rest _ acc

/-- C10: `lastSent` starts at 0, so for the first item processed after
startup the computed wait `max(0, 0 + minInterval - now)` is 0 whenever the
clock is at least `minInterval`, and the first delivery attempt starts at
its enqueue time, undelayed. -/
theorem c10_first_send_undelayed :
    initSys.lastSent = 0
    ∧ ∀ (cfg : Config) (t : Nat) (it : SimItem) (bs : List SimItem)
        (fuel : Nat), cfg.minIntervalMs ≤ t →
        waitFor initSys.lastSent cfg.minIntervalMs t = 0
        ∧ (run cfg (fuel + 2) [(t, it :: bs)] initSys []).2.head?
            = some ⟨it.token, t, t + it.dur, sendRes it⟩ := by
  refine ⟨rfl, ?_⟩
  intro cfg t it bs fuel hmin
  have hwait : waitFor 0 cfg.minIntervalMs t = 0 := by
    simp only [waitFor, Nat.zero_max]
    omega
  refine ⟨hwait, ?_⟩
  show (run cfg (fuel + 1) []
      (⟨it :: bs, true, 0, some (t, .loopHead)⟩ : Sys) []).2.head?
    = some ⟨it.token, t, t + it.dur, sendRes it⟩
  have hstep : run cfg (fuel + 1) []
        (⟨it :: bs, true, 0, some (t, .loopHead)⟩ : Sys) []
      = run cfg fuel []
          ⟨bs, true, 0,
            some (t + waitFor 0 cfg.minIntervalMs t + it.dur, .afterSend it)⟩
          [⟨it.token, t + waitFor 0 cfg.minIntervalMs t,
            t + waitFor 0 cfg.minIntervalMs t + it.dur, sendRes it⟩] := rfl
  rw [hstep, hwait]
  obtain ⟨tl, htl⟩ := run_extends_acc cfg fuel []
    (⟨bs, true, 0, some (t + 0 + it.dur, .afterSend it)⟩ : Sys)
    [⟨it.token, t + 0, t + 0 + it.dur, sendRes it⟩]
  rw [htl]
  simp

/-- Witness for C10: default configuration, first enqueue at `t = 100000`. -/
theorem c10_witness :
    waitFor initSys.lastSent cfg20_3.minIntervalMs 100000 = 0
    ∧ (run cfg20_3 2 [(100000, [itW])] initSys []).2.head?
        = some ⟨.str "W", 100000, 100005, true⟩ := by
  have h := c10_first_send_undelayed.2 cfg20_3 100000 itW [] 0 (by decide)
  exact h

/-! ### Step laws for `arrive` and `workerStep` -/

/-- `enqueue` finding no active worker: append, set the flag, start the
loop. -/
theorem arrive_idle (t : Nat) (b q : List SimItem) (ls : Nat)
    (ph : Option (Nat × Kont)) :
    arrive t b ⟨q, false, ls, ph⟩ = ⟨q ++ b, true, ls, some (t, .loopHead)⟩ :=
  rfl

/-- `enqueue` during a drain: append only. -/
theorem arrive_busy (t : Nat) (b q : List SimItem) (ls : Nat)
    (ph : Option (Nat × Kont)) :
    arrive t b ⟨q, true, ls, ph⟩ = ⟨q ++ b, true, ls, ph⟩ := rfl

/-- Loop head with an empty queue: clear the flag and stop (state part). -/
theorem workerStep_loopHead_nil_fst (cfg : Config) (w : Nat) (sd : Bool)
    (ls : Nat) (ph : Option (Nat × Kont)) :
    (workerStep cfg w .loopHead ⟨[], sd, ls, ph⟩).1 = ⟨[], false, ls, none⟩ :=
  rfl

/-- Loop head with an empty queue emits no attempt. -/
theorem workerStep_loopHead_nil_snd (cfg : Config) (w : Nat) (sd : Bool)
    (ls : Nat) (ph : Option (Nat × Kont)) :
    (workerStep cfg w .loopHead ⟨[], sd, ls, ph⟩).2 = [] := rfl

/-- Loop head with a queued item: pop it, wait out the minimum interval, and
issue the send (state part). -/
theorem workerStep_loopHead_cons_fst (cfg : Config) (w : Nat) (it : SimItem)
    (rest : List SimItem) (sd : Bool) (ls : Nat) (ph : Option (Nat × Kont)) :
    (workerStep cfg w .loopHead ⟨it :: rest, sd, ls, ph⟩).1
      = ⟨rest, sd, ls,
          some (w + waitFor ls cfg.minIntervalMs w + it.dur, .afterSend it)⟩ :=
  rfl

/-- Loop head with a queued item emits the attempt, starting after the
computed wait. -/
theorem workerStep_loopHead_cons_snd (cfg : Config) (w : Nat) (it : SimItem)
    (rest : List SimItem) (sd : Bool) (ls : Nat) (ph : Option (Nat × Kont)) :
    (workerStep cfg w .loopHead ⟨it :: rest, sd, ls, ph⟩).2
      = [⟨it.token, w + waitFor ls cfg.minIntervalMs w,
          w + waitFor ls cfg.minIntervalMs w + it.dur, sendRes it⟩] := rfl

/-- A resolving send completed at `w`: record `lastSent = w` and return to
the loop head at `w` or, when staggering applies, at `w + staggerMs`. -/
theorem workerStep_afterSend_ok (cfg : Config) (w : Nat) (it : SimItem)
    (q : List SimItem) (sd : Bool) (ls : Nat) (ph : Option (Nat × Kont))
    (hr : sendRes it = true) :
    ∃ T, (workerStep cfg w (.afterSend it) ⟨q, sd, ls, ph⟩).1
        = ⟨q, sd, w, some (T, .loopHead)⟩
      ∧ (workerStep cfg w (.afterSend it) ⟨q, sd, ls, ph⟩).2 = [] := by
  rw [workerStep]
  simp only [hr, eq_self_iff_true, if_true]
  split
  · exact ⟨w + cfg.staggerMs, rfl, rfl⟩
  · exact ⟨w, rfl, rfl⟩

/-- A send that threw: the drain loop aborts with the flag still set. -/
theorem workerStep_afterSend_throw (cfg : Config) (w : Nat) (it : SimItem)
    (q : List SimItem) (sd : Bool) (ls : Nat) (ph : Option (Nat × Kont))
    (hr : sendRes it = false) :
    workerStep cfg w (.afterSend it) ⟨q, sd, ls, ph⟩
      = (⟨q, sd, ls, none⟩, []) := by
  rw [workerStep]
  simp [hr]

/-! ### C1: global minimum spacing between sends -/

/-- Waiting out `waitFor` from `t` always lands at or after
`lastSent + minInterval`. -/
theorem le_add_waitFor (ls m t : Nat) : ls + m ≤ t + waitFor ls m t := by
  simp only [waitFor, Nat.zero_max]
  omega

/-- Appending one attempt that starts late enough preserves the spacing
chain. -/
theorem gapChain_append_one (minI : Nat) (acc : List SendEv) (e : SendEv)
    (hg : gapChain minI acc)
    (h : ∀ x, acc.getLast? = some x → x.finishT + minI ≤ e.startT) :
    gapChain minI (acc ++ [e]) := by
  rw [gapChain, List.chain'_append]
  refine ⟨hg, List.chain'_singleton e, ?_⟩
  intro x hx y hy
  simp only [List.head?_cons, Option.mem_def, Option.some.injEq] at hy
  subst hy
  exact h x hx

/-- One worker step preserves the spacing chain and the state/trace
invariant. -/
theorem workerStep_preserves (cfg : Config) (w : Nat) (k : Kont)
    (q : List SimItem) (ls : Nat) (acc : List SendEv)
    (hg : gapChain cfg.minIntervalMs acc)
    (hinv : stateEvInv ⟨q, true, ls, some (w, k)⟩ acc) :
    gapChain cfg.minIntervalMs
      (acc ++ (workerStep cfg w k ⟨q, true, ls, some (w, k)⟩).2)
    ∧ stateEvInv (workerStep cfg w k ⟨q, true, ls, some (w, k)⟩).1
        (acc ++ (workerStep cfg w k ⟨q, true, ls, some (w, k)⟩).2) := by
  obtain ⟨hwf, hev⟩ := hinv
  cases k with
  | loopHead =>
    cases q with
    | nil =>
      rw [workerStep_loopHead_nil_fst, workerStep_loopHead_nil_snd,
        List.append_nil]
      exact ⟨hg, ⟨fun _ _ h => by simp at h, Or.inr hev⟩⟩
    | cons it rest =>
      rw [workerStep_loopHead_cons_fst, workerStep_loopHead_cons_snd]
      refine ⟨?_, ⟨fun _ _ _ => rfl, ⟨_, List.getLast?_concat _, rfl⟩⟩⟩
      apply gapChain_append_one _ _ _ hg
      intro x hx
      rcases hev with h | ⟨e, hlast, hfin⟩
      · subst h
        simp at hx
      · rw [hlast] at hx
        have hex : e = x := Option.some.inj hx
        subst hex
        rw [← hfin]
        exact le_add_waitFor ls _ w
  | afterSend it =>
    rcases hev with ⟨e, hlast, hfin⟩
    by_cases hr : sendRes it = true
    · obtain ⟨T, h1, h2⟩ :=
        workerStep_afterSend_ok cfg w it q true ls (some (w, .afterSend it)) hr
      rw [h1, h2, List.append_nil]
      exact ⟨hg, ⟨fun _ _ _ => rfl, Or.inr ⟨e, hlast, hfin.symm⟩⟩⟩
    · rw [Bool.not_eq_true] at hr
      have h12 :=
        workerStep_afterSend_throw cfg w it q true ls (some (w, .afterSend it)) hr
      rw [h12]
      rw [List.append_nil]
      exact ⟨hg, ⟨fun _ _ h => by simp at h, Or.inl rfl⟩⟩

/-- Every step of `run` preserves the spacing chain. -/
theorem run_gapChain (cfg : Config) :
    ∀ (fuel : Nat) (arrivals : List (Nat × List SimItem)) (s : Sys)
      (acc : List SendEv),
      gapChain cfg.minIntervalMs acc → stateEvInv s acc →
      gapChain cfg.minIntervalMs (run cfg fuel arrivals s acc).2 := by
  intro fuel
  induction fuel with
  | zero =>
    intro arrivals s acc hg _
    rw [run_zero]
    exact hg
  | succ n ih =>
    intro arrivals s acc hg hinv
    obtain ⟨q, sd, ls, ph⟩ := s
    obtain ⟨hwf, hev⟩ := hinv
    rcases ph with _ | ⟨w, k⟩
    · rcases arrivals with _ | ⟨⟨t, b⟩, rest⟩
      · rw [run_succ_none_nil]
        exact hg
      · rw [run_succ_none_cons]
        cases sd with
        | false =>
          rw [arrive_idle]
          rcases hev with h | h
          · exact absurd h (by simp)
          · exact ih rest _ acc hg ⟨fun _ _ _ => rfl, h⟩
        | true =>
          rw [arrive_busy]
          exact ih rest _ acc hg ⟨fun _ _ _ => rfl, Or.inl rfl⟩
    · have hsd : sd = true := hwf w k rfl
      subst hsd
      rcases arrivals with _ | ⟨⟨t, b⟩, rest⟩
      · rw [run_succ_some_nil]
        obtain ⟨hg2, hinv2⟩ := workerStep_preserves cfg w k q ls acc hg ⟨hwf, hev⟩
        exact ih [] _ _ hg2 hinv2
      · rw [run_succ_some_cons]
        split
        · obtain ⟨hg2, hinv2⟩ := workerStep_preserves cfg w k q ls acc hg ⟨hwf, hev⟩
          exact ih ((t, b) :: rest) _ _ hg2 hinv2
        · rw [arrive_busy]
          exact ih rest _ acc hg ⟨fun _ _ h => hwf _ _ h, hev⟩

/-- C1: the worker computes
`wait = max(0, lastSendCompletedAt + minInterval - now)` and suspends for it
before issuing a send (an attempt popped at time `t` starts exactly at
`t + wait`), and consequently, over any whole execution from process start,
the wall-clock gap between completion of one delivery attempt and the start
of the next is at least the configured minimum interval — globally, across
all queued items, batches, and worker restarts. -/
theorem c1_global_min_interval_spacing (cfg : Config) (fuel : Nat)
    (arrivals : List (Nat × List SimItem)) :
    gapChain cfg.minIntervalMs (run cfg fuel arrivals initSys []).2
    ∧ ∀ (t : Nat) (s : Sys) (it : SimItem) (rest : List SimItem),
        s.queue = it :: rest →
        (workerStep cfg t .loopHead s).2
          = [⟨it.token, t + waitFor s.lastSent cfg.minIntervalMs t,
              t + waitFor s.lastSent cfg.minIntervalMs t + it.dur,
              sendRes it⟩] := by
  constructor
  · exact run_gapChain cfg fuel arrivals initSys [] List.chain'_nil
      ⟨fun _ _ h => by simp [initSys] at h, Or.inr (Or.inl rfl)⟩
  · intro t s it rest hq
    obtain ⟨q, sd, ls, ph⟩ := s
    dsimp only at hq
    subst hq
    exact workerStep_loopHead_cons_snd cfg t it rest sd ls ph

/-- Witness for C1: the spacing chain of a concrete execution, and the wait
computation for a concrete pop. -/
theorem c1_witness :
    gapChain cfg20_3.minIntervalMs
      (run cfg20_3 30 [(100000, [itW])] initSys []).2
    ∧ (workerStep cfg20_3 5 .loopHead ⟨[itW], true, 0, none⟩).2
        = [⟨itW.token, 5 + waitFor 0 cfg20_3.minIntervalMs 5,
            5 + waitFor 0 cfg20_3.minIntervalMs 5 + itW.dur, sendRes itW⟩] := by
  have h := c1_global_min_interval_spacing cfg20_3 30 [(100000, [itW])]
  exact ⟨h.1, h.2 5 ⟨[itW], true, 0, none⟩ itW [] rfl⟩

/-! ### C2 and C7: complete drains, FIFO order, and the throw wedge -/

/-- A string-token item's send always resolves, whatever the fetch does. -/
theorem sendRes_of_str (it : SimItem) (h : isStrTok it.token = true) :
    sendRes it = true := by
  obtain ⟨tk, p, d, f⟩ := it
  cases tk with
  | str s => cases f <;> rfl
  | null => simp [isStrTok] at h
  | bool b => simp [isStrTok] at h
  | num n => simp [isStrTok] at h
  | arr xs => simp [isStrTok] at h
  | obj fs => simp [isStrTok] at h

/-- `totalItems` over a cons of batches. -/
theorem totalItems_cons (t : Nat) (b : List SimItem)
    (rest : List (Nat × List SimItem)) :
    totalItems ((t, b) :: rest) = b.length + totalItems rest := by
  simp [totalItems]

/-- `batchTokens` over a cons of batches. -/
theorem batchTokens_cons (t : Nat) (b : List SimItem)
    (rest : List (Nat × List SimItem)) :
    batchTokens ((t, b) :: rest) = b.map SimItem.token ++ batchTokens rest := by
  simp [batchTokens]

/-- One token per submitted item. -/
theorem batchTokens_length (arrivals : List (Nat × List SimItem)) :
    (batchTokens arrivals).length = totalItems arrivals := by
  induction arrivals with
  | nil => rfl
  | cons a rest ih => simp [batchTokens, totalItems] at ih ⊢; omega

/-- A single worker step on a well-formed, string-token state: it stays
well-formed, consumes at least one unit of fuel budget, and keeps the
emitted-plus-queued token sequence unchanged. -/
theorem drain_worker_step (cfg : Config) (w : Nat) (k : Kont)
    (q : List SimItem) (sd : Bool) (ls : Nat) (acc : List SendEv)
    (hwf : drainWF ⟨q, sd, ls, some (w, k)⟩) (hsq : strQueue q) :
    drainWF (workerStep cfg w k ⟨q, sd, ls, some (w, k)⟩).1
    ∧ strQueue (workerStep cfg w k ⟨q, sd, ls, some (w, k)⟩).1.queue
    ∧ 3 * (workerStep cfg w k ⟨q, sd, ls, some (w, k)⟩).1.queue.length
        + phaseCost (workerStep cfg w k ⟨q, sd, ls, some (w, k)⟩).1.phase + 1
        ≤ 3 * q.length + phaseCost (some (w, k))
    ∧ (acc ++ (workerStep cfg w k ⟨q, sd, ls, some (w, k)⟩).2).map SendEv.token
        ++ (workerStep cfg w k ⟨q, sd, ls, some (w, k)⟩).1.queue.map SimItem.token
        = acc.map SendEv.token ++ q.map SimItem.token := by
  cases k with
  | loopHead =>
    cases q with
    | nil =>
      rw [workerStep_loopHead_nil_fst, workerStep_loopHead_nil_snd]
      refine ⟨⟨rfl, rfl⟩, hsq, ?_, by simp⟩
      simp [phaseCost]
    | cons it rest =>
      rw [workerStep_loopHead_cons_fst, workerStep_loopHead_cons_snd]
      refine ⟨⟨hwf, sendRes_of_str it (hsq it (List.mem_cons_self it rest))⟩,
        fun x hx => hsq x (List.mem_cons_of_mem it hx), ?_, ?_⟩
      · simp [phaseCost]
        omega
      · simp
  | afterSend it =>
    obtain ⟨hsd, hr⟩ := hwf
    obtain ⟨T, h1, h2⟩ := workerStep_afterSend_ok cfg w it q sd ls
      (some (w, .afterSend it)) hr
    rw [h1, h2]
    refine ⟨hsd, hsq, ?_, by simp⟩
    simp [phaseCost]

/-- With enough fuel, a well-formed string-token execution drains
completely: the final state is idle with the flag cleared and an empty
queue, and the trace contains exactly the submitted tokens, in FIFO arrival
order. -/
theorem run_drains (cfg : Config) :
    ∀ (fuel : Nat) (arrivals : List (Nat × List SimItem)) (s : Sys)
      (acc : List SendEv),
      drainWF s → strQueue s.queue → strArrivals arrivals →
      2 * arrivals.length + 3 * (s.queue.length + totalItems arrivals)
          + phaseCost s.phase ≤ fuel →
      ((run cfg fuel arrivals s acc).1.queue = []
        ∧ (run cfg fuel arrivals s acc).1.sending = false
        ∧ (run cfg fuel arrivals s acc).1.phase = none)
      ∧ (run cfg fuel arrivals s acc).2.map SendEv.token
          = acc.map SendEv.token ++ s.queue.map SimItem.token
              ++ batchTokens arrivals := by
  intro fuel
  induction fuel with
  | zero =>
    intro arrivals s acc hwf hsq hsa hfuel
    obtain ⟨q, sd, ls, ph⟩ := s
    dsimp only at hfuel
    have ha : arrivals = [] := List.length_eq_zero.mp (by omega)
    have hph : ph = none := by
      rcases ph with _ | ⟨w, k⟩
      · rfl
      · cases k <;> simp [phaseCost] at hfuel
    subst ha hph
    obtain ⟨hsd, hq⟩ := hwf
    dsimp only at hsd hq
    subst hq
    rw [run_zero]
    exact ⟨⟨rfl, hsd, rfl⟩, by simp [batchTokens]⟩
  | succ n ih =>
    intro arrivals s acc hwf hsq hsa hfuel
    obtain ⟨q, sd, ls, ph⟩ := s
    dsimp only at hfuel
    rcases ph with _ | ⟨w, k⟩
    · obtain ⟨hsd, hq⟩ := hwf
      dsimp only at hsd hq
      subst hsd hq
      rcases arrivals with _ | ⟨⟨t, b⟩, rest⟩
      · rw [run_succ_none_nil]
        exact ⟨⟨rfl, rfl, rfl⟩, by simp [batchTokens]⟩
      · rw [run_succ_none_cons, arrive_idle]
        have hres := ih rest ⟨[] ++ b, true, ls, some (t, .loopHead)⟩ acc
          rfl (by simpa using hsa (t, b) (List.mem_cons_self _ _))
          (fun a hx => hsa a (List.mem_cons_of_mem _ hx))
          (by simp [phaseCost, totalItems_cons] at hfuel ⊢; omega)
        refine ⟨hres.1, ?_⟩
        rw [hres.2]
        simp [batchTokens_cons]
    · have hsd : sd = true := by
        cases k with
        | loopHead => exact hwf
        | afterSend it => exact hwf.1
      subst hsd
      rcases arrivals with _ | ⟨⟨t, b⟩, rest⟩
      · rw [run_succ_some_nil]
        obtain ⟨hwf2, hsq2, hcost, htok⟩ :=
          drain_worker_step cfg w k q true ls acc hwf hsq
        have hres := ih [] (workerStep cfg w k ⟨q, true, ls, some (w, k)⟩).1
          (acc ++ (workerStep cfg w k ⟨q, true, ls, some (w, k)⟩).2)
          hwf2 hsq2 hsa (by simp [totalItems] at hfuel ⊢; omega)
        refine ⟨hres.1, ?_⟩
        rw [hres.2, htok]
      · rw [run_succ_some_cons]
        split
        · obtain ⟨hwf2, hsq2, hcost, htok⟩ :=
            drain_worker_step cfg w k q true ls acc hwf hsq
          have hres := ih ((t, b) :: rest)
            (workerStep cfg w k ⟨q, true, ls, some (w, k)⟩).1
            (acc ++ (workerStep cfg w k ⟨q, true, ls, some (w, k)⟩).2)
            hwf2 hsq2 hsa (by omega)
          refine ⟨hres.1, ?_⟩
          rw [hres.2, htok]
        · rw [arrive_busy]
          have hwf2 : drainWF ⟨q ++ b, true, ls, some (w, k)⟩ := by
            cases k with
            | loopHead => exact rfl
            | afterSend it => exact ⟨rfl, hwf.2⟩
          have hres := ih rest ⟨q ++ b, true, ls, some (w, k)⟩ acc hwf2
            (by
              intro x hx
              rcases List.mem_append.mp hx with hx | hx
              · exact hsq x hx
              · exact hsa (t, b) (List.mem_cons_self _ _) x hx)
            (fun a hx => hsa a (List.mem_cons_of_mem _ hx))
            (by simp [totalItems_cons] at hfuel ⊢; omega)
          refine ⟨hres.1, ?_⟩
          rw [hres.2]
          simp [batchTokens_cons]

/-- C2 counterexample: submit `["A", 7, "C"]` in one `enqueue` (reachable via
`POST /push` with `{to:["A",7,"C"],...}` since `7` is truthy).  The attempt
on token `7` throws (`token.substring` in the logging), `processQueue`
aborts with `sending` stuck at `true`, and `"C"` is never attempted: 2
delivery attempts for 3 submitted tokens, and the state is a fixed point
(more fuel changes nothing). -/
theorem c2_counterexample :
    batchTokens [(0, [itKA, itK7, itKC])] = [.str "A", .num 7, .str "C"]
    ∧ (run ⟨0, 0⟩ 50 [(0, [itKA, itK7, itKC])] initSys []).2.map SendEv.token
        = [.str "A", .num 7]
    ∧ (run ⟨0, 0⟩ 50 [(0, [itKA, itK7, itKC])] initSys []).1.queue.map SimItem.token
        = [.str "C"]
    ∧ (run ⟨0, 0⟩ 50 [(0, [itKA, itK7, itKC])] initSys []).1.sending = true
    ∧ (run ⟨0, 0⟩ 50 [(0, [itKA, itK7, itKC])] initSys []).1.phase = none
    ∧ run ⟨0, 0⟩ 50 [(0, [itKA, itK7, itKC])] initSys []
        = run ⟨0, 0⟩ 500 [(0, [itKA, itK7, itKC])] initSys [] :=
  ⟨rfl, rfl, rfl, rfl, rfl, rfl⟩

/-- C2 (amended): for every sequence of `enqueue` calls in which every
submitted token is a string, the total number of delivery attempts equals
the total number of tokens submitted — no item is dropped — and the attempts
occur exactly in FIFO arrival order over the whole process lifetime. -/
theorem c2_amended_fifo_no_drops (cfg : Config)
    (arrivals : List (Nat × List SimItem)) (hstr : strArrivals arrivals) :
    ∃ fuel,
      (run cfg fuel arrivals initSys []).2.map SendEv.token
        = batchTokens arrivals
      ∧ (run cfg fuel arrivals initSys []).1.queue = []
      ∧ (run cfg fuel arrivals initSys []).2.length = totalItems arrivals := by
  refine ⟨2 * arrivals.length + 3 * totalItems arrivals, ?_⟩
  have h := run_drains cfg (2 * arrivals.length + 3 * totalItems arrivals)
    arrivals initSys [] ⟨rfl, rfl⟩ (fun _ hx => absurd hx (List.not_mem_nil _))
    hstr (by simp only [initSys, phaseCost, List.length_nil]; omega)
  have htok : (run cfg (2 * arrivals.length + 3 * totalItems arrivals)
      arrivals initSys []).2.map SendEv.token = batchTokens arrivals := by
    rw [h.2]
    simp [initSys]
  refine ⟨htok, h.1.1, ?_⟩
  have := congrArg List.length htok
  rw [List.length_map, batchTokens_length] at this
  exact this

/-- Witness for C2 (amended): two `enqueue` calls with string tokens. -/
theorem c2_witness :
    ∃ fuel,
      (run cfg20_3 fuel [(0, [itKA, itKC]), (50000, [itKD])] initSys []).2.map
          SendEv.token
        = batchTokens [(0, [itKA, itKC]), (50000, [itKD])]
      ∧ (run cfg20_3 fuel [(0, [itKA, itKC]), (50000, [itKD])] initSys []).1.queue
          = []
      ∧ (run cfg20_3 fuel [(0, [itKA, itKC]), (50000, [itKD])] initSys []).2.length
          = totalItems [(0, [itKA, itKC]), (50000, [itKD])] :=
  c2_amended_fifo_no_drops cfg20_3 [(0, [itKA, itKC]), (50000, [itKD])]
    (by decide)

/-- C7 counterexample: the first queued item is the truthy boolean token
`true` with a failing fetch; its send attempt fails by throwing, the worker
loop aborts (`sending` stays `true`, the wake-up is gone) and the next
queued item `"D"` is never attempted — the worker does not proceed to the
next queued item, and the state is a fixed point. -/
theorem c7_counterexample :
    sendRes itKT = false
    ∧ (run ⟨0, 0⟩ 50 [(0, [itKT, itKD])] initSys []).2.map SendEv.token
        = [.bool true]
    ∧ (run ⟨0, 0⟩ 50 [(0, [itKT, itKD])] initSys []).1.queue.map SimItem.token
        = [.str "D"]
    ∧ (run ⟨0, 0⟩ 50 [(0, [itKT, itKD])] initSys []).1.sending = true
    ∧ run ⟨0, 0⟩ 50 [(0, [itKT, itKD])] initSys []
        = run ⟨0, 0⟩ 300 [(0, [itKT, itKD])] initSys [] :=
  ⟨rfl, rfl, rfl, rfl, rfl⟩

/-- C7 (amended): for string tokens, no per-item delivery failure is fatal:
whatever the fetch outcomes (including failures for every item), every
queued item is attempted, the worker loop runs to completion, and the flag
is cleared — the loop always proceeds to the next queued item. -/
theorem c7_amended_failures_not_fatal (cfg : Config)
    (arrivals : List (Nat × List SimItem)) (hstr : strArrivals arrivals) :
    ∃ fuel,
      (run cfg fuel arrivals initSys []).1.sending = false
      ∧ (run cfg fuel arrivals initSys []).1.phase = none
      ∧ (run cfg fuel arrivals initSys []).1.queue = []
      ∧ (run cfg fuel arrivals initSys []).2.length = totalItems arrivals := by
  refine ⟨2 * arrivals.length + 3 * totalItems arrivals, ?_⟩
  have h := run_drains cfg (2 * arrivals.length + 3 * totalItems arrivals)
    arrivals initSys [] ⟨rfl, rfl⟩ (fun _ hx => absurd hx (List.not_mem_nil _))
    hstr (by simp only [initSys, phaseCost, List.length_nil]; omega)
  refine ⟨h.1.2.1, h.1.2.2, h.1.1, ?_⟩
  have htok := congrArg List.length h.2
  rw [List.length_map] at htok
  rw [htok]
  simp [initSys, batchTokens_length]

/-- Witness for C7 (amended): both queued sends fail with network errors,
yet both are attempted and the worker exits cleanly. -/
theorem c7_witness :
    ∃ fuel,
      (run cfg20_3 fuel [(0, [itF1, itF2])] initSys []).1.sending = false
      ∧ (run cfg20_3 fuel [(0, [itF1, itF2])] initSys []).1.phase = none
      ∧ (run cfg20_3 fuel [(0, [itF1, itF2])] initSys []).1.queue = []
      ∧ (run cfg20_3 fuel [(0, [itF1, itF2])] initSys []).2.length
          = totalItems [(0, [itF1, itF2])] :=
  c7_amended_failures_not_fatal cfg20_3 [(0, [itF1, itF2])] (by decide)

end Theorems

end ExpoProxy
